import Mathlib

/-
Verification of the DocWorkflowManager workflow engine
(src/docs/DocWorkflowManager.ts and the MCP server that wraps it).

The development shallowly embeds the TypeScript source: pure logic becomes
Lean functions, the mutable download history becomes explicit state passing,
and the I/O boundary (network responses, file reads, the JSON.parse library
routine, directory listings) is represented by explicit input values that
describe what the code observes at that boundary.  All character-level
string processing (the glob-to-regex translation, the directive regex, the
substring checks) is modelled exactly, restricted to ASCII whitespace where
the JavaScript definitions also cover exotic Unicode whitespace.
-/

namespace DocWorkflow

/-- Boolean prefix test on character lists, used to model the scanning done
by the JavaScript global string replacement. -/
def isPrefixL : List Char → List Char → Bool
  | [], _ => true
  | _ :: _, [] => false
  | a :: as, b :: bs => a == b && isPrefixL as bs

/-- Substring containment on character lists; models the JavaScript
String.prototype.includes method. -/
def containsSubList (needle : List Char) : List Char → Bool
  | [] => isPrefixL needle []
  | c :: cs => isPrefixL needle (c :: cs) || containsSubList needle cs

/-- Models the JavaScript expression a.includes(b): true when b occurs as a
contiguous substring of a. -/
def strContains (s sub : String) : Bool :=
  containsSubList sub.data s.data

/-- Models String.prototype.toLowerCase for the ASCII range (the only range
exercised by the source, whose verbs and expiry marker are ASCII). -/
def lowerStr (s : String) : String :=
  String.mk (s.data.map Char.toLower)

/-- Fuel-indexed global replacement: replaces every non-overlapping,
left-to-right occurrence of p in the input with r, never rescanning the
inserted replacement text.  This is the semantics of the JavaScript call
s.replace(/p/g, r) for a literal pattern p.  The fuel argument only bounds
the recursion; it is instantiated with the length of the input, which
suffices because every step consumes at least one input character. -/
def replaceFuel (p r : List Char) : Nat → List Char → List Char
  | _, [] => []
  | 0, s => s
  | fuel + 1, c :: cs =>
    if isPrefixL p (c :: cs) then
      r ++ replaceFuel p r fuel (List.drop (p.length - 1) cs)
    else
      c :: replaceFuel p r fuel cs

/-- Global replacement of the literal pattern p by r in s, as in the
JavaScript s.replace(/p/g, r). -/
def jsReplace (s p r : String) : String :=
  String.mk (replaceFuel p.data r.data s.data.length s.data)

/-- The glob-to-regex translation of DocWorkflowManager.matchesPattern,
exactly the four chained replacements of the source:
first every ** becomes .* , then every remaining * becomes [^\/]* ,
then every ? becomes [^\/] , and finally every . is escaped to \. .
Because the later passes run over the output of the earlier ones, the
characters inserted for ** are corrupted: its dot gets escaped and its star
gets rewritten, so ** ends up requiring a literal dot. -/
def globToRegexString (pattern : String) : String :=
  jsReplace (jsReplace (jsReplace (jsReplace pattern "**" ".*") "*" "[^\\/]*") "?" "[^\\/]") "." "\\."

/-- Characters accepted by the regex class [^\/] appearing in the translated
patterns: any character other than a path separator. -/
def nonSep (c : Char) : Bool := c != '/'

/-- Characters matched by an unescaped regex dot in JavaScript: any
character except a line terminator. -/
def jsDotChar (c : Char) : Bool :=
  !(c == '\n' || c == '\r' || c == '\u2028' || c == '\u2029')

/-- Tokens of the regular expressions produced by globToRegexString.  After
the four substitutions the output consists only of backslash-escaped
literals, the class [^\/] with or without a star, unescaped dots (only
reachable when the original pattern contained a backslash), and plain
literal characters. -/
inductive RegexTok where
  | lit (c : Char)
  | anyNoSep
  | starNoSep
  | dotAny
deriving DecidableEq

/-- Reads the translated regex source back into tokens.  Characters outside
the dialect produced from the glob subset of the specification (for example
an unmatched bracket) are treated as literals; such patterns make the
JavaScript RegExp constructor throw instead, a case no claim exercises. -/
def parseRegexToks : List Char → Option (List RegexTok)
  | [] => some []
  | '\\' :: c :: rest => (parseRegexToks rest).map (fun ts => RegexTok.lit c :: ts)
  | ['\\'] => none
  | '[' :: '^' :: '\\' :: '/' :: ']' :: '*' :: rest =>
    (parseRegexToks rest).map (fun ts => RegexTok.starNoSep :: ts)
  | '[' :: '^' :: '\\' :: '/' :: ']' :: rest =>
    (parseRegexToks rest).map (fun ts => RegexTok.anyNoSep :: ts)
  | '.' :: rest => (parseRegexToks rest).map (fun ts => RegexTok.dotAny :: ts)
  | c :: rest => (parseRegexToks rest).map (fun ts => RegexTok.lit c :: ts)

/-- All suffixes of the input reachable by consuming zero or more
non-separator characters; these are the continuation points a starred
[^\/] class may leave behind. -/
def starChoices : List Char → List (List Char)
  | [] => [[]]
  | c :: cs => (c :: cs) :: (if nonSep c then starChoices cs else [])

/-- Anchored matching of a token list against a character list, with full
backtracking for the starred class; models RegExp.prototype.test on the
anchored pattern built by the source (new RegExp of ^ pattern $). -/
def matchToks : List RegexTok → List Char → Bool
  | [], s => s.isEmpty
  | RegexTok.lit c :: ts, s =>
    match s with
    | d :: ds => c == d && matchToks ts ds
    | [] => false
  | RegexTok.anyNoSep :: ts, s =>
    match s with
    | d :: ds => nonSep d && matchToks ts ds
    | [] => false
  | RegexTok.dotAny :: ts, s =>
    match s with
    | d :: ds => jsDotChar d && matchToks ts ds
    | [] => false
  | RegexTok.starNoSep :: ts, s => (starChoices s).any (fun rest => matchToks ts rest)

/-- DocWorkflowManager.matchesPattern: translate the glob pattern with the
four replacements and test the whole relative path against the anchored
result. -/
def matchesPattern (filePath pattern : String) : Bool :=
  match parseRegexToks (globToRegexString pattern).data with
  | some toks => matchToks toks filePath.data
  | none => false

/-- The four directive kinds of the Directive interface; the source types
them as a closed union of string literals. -/
inductive DirectiveKind where
  | download
  | unzip
  | validate
  | implement
deriving DecidableEq

/-- The Directive interface of the source: kind, trimmed target, and the
raw line kept for diagnostics. -/
structure Directive where
  type : DirectiveKind
  target : String
  raw : String
deriving DecidableEq

/-- The DownloadResult interface of the source.  The payload bytes of the
Buffer are modelled as a string; a missing payload (the expiry case, where
the source stores null) is none. -/
structure DownloadResult where
  url : String
  data : Option String
  contentType : String
  isExpired : Bool
  expiryInstructions : Option String
deriving DecidableEq

/-- What the source observes of JSON.parse applied to the fetched body:
either the library throws (not valid JSON, or not the expected shape), or
it yields an object whose message and instructions fields are as given.
The source reads no other field. -/
inductive JsonView where
  | parseFail
  | obj (message : Option String) (instructions : Option String)
deriving DecidableEq

/-- Classification of one axios fetch attempt, mirroring the branches of
processDownload: a 200 response with its declared content type, body and
JSON view (validateStatus accepts only status 200), a rejection carrying a
non-200 response, a rejection with no response received, a timeout
(ECONNABORTED), or a non-axios error. -/
inductive FetchOutcome where
  | success (contentType : String) (body : String) (view : JsonView)
  | httpError (status : Nat)
  | noResponse
  | timeout
  | otherFailure
deriving DecidableEq

/-- DocWorkflowManager.processDownload as a state transformer over the
download history: the returned pair is the new history and the boolean the
method reports.  A 200 response whose content type includes
application/json and whose parsed message contains the lowercased marker
url expired appends one expiry record (null payload, captured
instructions) and fails; every other 200 response appends one ordinary
record and succeeds; every rejection branch of the catch block only logs
and returns false, appending nothing. -/
def processDownload (history : List DownloadResult) (url : String)
    (outcome : FetchOutcome) : List DownloadResult × Bool :=
  match outcome with
  | FetchOutcome.success contentType body view =>
    if strContains contentType "application/json" then
      match view with
      | JsonView.obj (some msg) instructions =>
        if strContains (lowerStr msg) "url expired" then
          (history ++ [{ url := url, data := none, contentType := contentType,
                         isExpired := true, expiryInstructions := instructions }], false)
        else
          (history ++ [{ url := url, data := some body, contentType := contentType,
                         isExpired := false, expiryInstructions := none }], true)
      | _ =>
        (history ++ [{ url := url, data := some body, contentType := contentType,
                       isExpired := false, expiryInstructions := none }], true)
    else
      (history ++ [{ url := url, data := some body, contentType := contentType,
                     isExpired := false, expiryInstructions := none }], true)
  | _ => (history, false)

/-- Runs a sequence of download attempts through processDownload, threading
the history. -/
def runDownloads (history : List DownloadResult) :
    List (String × FetchOutcome) → List DownloadResult
  | [] => history
  | (url, o) :: rest => runDownloads (processDownload history url o).1 rest

/-- Number of attempts in a sequence that received an HTTP 200 response;
these are exactly the attempts for which processDownload appends a
record. -/
def countOk200 : List (String × FetchOutcome) → Nat
  | [] => 0
  | (_, FetchOutcome.success _ _ _) :: rest => countOk200 rest + 1
  | _ :: rest => countOk200 rest

/-- Outcome of the precondition phase of processUnzip, the part of the
method that runs before any filesystem write: either one of the three
guard failures with its diagnostic, or the decision to begin extraction
into the resolved destination (mkdir and writeFile happen only after this
point). -/
inductive UnzipStep where
  | precondFail (msg : String)
  | beginExtraction (destination : String)
deriving DecidableEq

/-- The precondition phase of DocWorkflowManager.processUnzip: resolve the
destination (an empty target falls back to documentation), then fail on an
empty history, then on a missing payload of the latest record, then on a
content type containing neither zip nor octet-stream; otherwise extraction
begins.  The source checks length of the history and indexes its last
element, modelled here with getLast?. -/
def processUnzipPre (history : List DownloadResult) (targetPath : String) : UnzipStep :=
  let destination := if targetPath == "" then "documentation" else targetPath
  match history.getLast? with
  | none => UnzipStep.precondFail "No downloads available to unzip"
  | some latest =>
    match latest.data with
    | none => UnzipStep.precondFail "No data available in latest download"
    | some _ =>
      if !strContains latest.contentType "zip" && !strContains latest.contentType "octet-stream" then
        UnzipStep.precondFail ("Content type " ++ latest.contentType ++ " is not a zip file")
      else
        UnzipStep.beginExtraction destination

/-- Outcome of processValidate: missing root directory, no file matched, or
a successful match count, each carrying the root that was searched. -/
inductive ValidateStep where
  | rootMissing (root : String)
  | noMatches (root : String)
  | matched (root : String) (count : Nat)
deriving DecidableEq

/-- DocWorkflowManager.processValidate.  The root is the local constant
documentationPath, always the string documentation; the method receives
only the pattern.  The filesystem is represented by rootExists (the
fs.access probe) and fileTree, the relative paths of the regular files the
recursive traversal of the root visits, in traversal order. -/
def processValidate (pattern : String) (rootExists : Bool)
    (fileTree : List String) : ValidateStep :=
  let documentationPath := "documentation"
  if !rootExists then ValidateStep.rootMissing documentationPath
  else
    let files := fileTree.filter (fun f => matchesPattern f pattern)
    if files.length == 0 then ValidateStep.noMatches documentationPath
    else ValidateStep.matched documentationPath files.length

/-- Root actually searched by a ValidateStep outcome. -/
def stepRoot : ValidateStep → String
  | ValidateStep.rootMissing r => r
  | ValidateStep.noMatches r => r
  | ValidateStep.matched r _ => r

/-- The validate_patterns tool handler of the MCP server: it declares a
basePath input in its schema but invokes
workflowManager.processValidate(args.pattern), forwarding only the
pattern; the basePath argument is never passed on. -/
def validatePatternsTool (pattern : String) (basePath : Option String)
    (rootExists : Bool) (fileTree : List String) : ValidateStep :=
  processValidate pattern rootExists fileTree

/-- DocWorkflowManager.runFallbackFlow: logs and returns true (a no-op
success). -/
def runFallbackFlow : Bool := true

/-- The for-loop of processWorkflow over the parsed directives, returning
both the directives whose handler was actually invoked (in invocation
order) and the boolean result: each directive is dispatched in turn, and
the first handler that reports failure ends the loop with result false. -/
def runDirectivesTrace (handler : Directive → Bool) :
    List Directive → List Directive × Bool
  | [] => ([], true)
  | d :: ds =>
    if handler d then
      let r := runDirectivesTrace handler ds
      (d :: r.1, r.2)
    else ([d], false)

/-- Result of one processWorkflow run: the reported boolean, whether the
fallback flow was invoked, and the directives whose handler was invoked. -/
structure WorkflowRun where
  success : Bool
  fellBack : Bool
  invoked : List Directive
deriving DecidableEq

/-- DocWorkflowManager.processWorkflow.  The outcome of
parseImplementationPlan (either the text parsed into directives, or the
message of the thrown read error) is the input; handler stands for
processDirective, whose own try/catch blocks make it return a boolean
rather than throw.  A thrown read error reaches the catch block, which
runs the fallback only when the message contains ENOENT and otherwise
reports failure; an empty directive list also runs the fallback; a
non-empty list runs the sequential loop. -/
def processWorkflow (parseOutcome : Except String (List Directive))
    (handler : Directive → Bool) : WorkflowRun :=
  match parseOutcome with
  | Except.error msg =>
    if strContains msg "ENOENT" then
      { success := runFallbackFlow, fellBack := true, invoked := [] }
    else
      { success := false, fellBack := false, invoked := [] }
  | Except.ok dirs =>
    match dirs with
    | [] => { success := runFallbackFlow, fellBack := true, invoked := [] }
    | d :: ds =>
      let r := runDirectivesTrace handler (d :: ds)
      { success := r.2, fellBack := false, invoked := r.1 }

/-- Characters matched by the JavaScript regex class backslash-s, restricted
to the ASCII range used by plan documents (the full class also contains
Unicode spaces). -/
def jsSpace (c : Char) : Bool :=
  c == ' ' || c == '\t' || c == '\n' || c == '\r' || c == '\x0b' || c == '\x0c'

/-- Models String.prototype.trim for ASCII whitespace: drops jsSpace
characters from both ends. -/
def jsTrim (s : String) : String :=
  String.mk (((s.data.dropWhile jsSpace).reverse.dropWhile jsSpace).reverse)

/-- The tail of the directive regex: backslash-s-plus followed by the
capture group dot-plus anchored at the end of the line.  The whitespace
run is matched greedily and gives characters back to the capture only when
the capture would otherwise be empty; the capture accepts only jsDotChar
characters.  Returns the captured target. -/
def matchTail (rest : List Char) : Option (List Char) :=
  let ws := rest.takeWhile jsSpace
  let t := rest.dropWhile jsSpace
  if ws.isEmpty then none
  else if !t.isEmpty then
    if t.all jsDotChar then some t else none
  else
    match rest.getLast? with
    | some c =>
      if 2 ≤ ws.length then
        if jsDotChar c then some [c] else none
      else none
    | none => none

/-- Character-level model of the directive line regex of
parseImplementationPlan, anchored over the whole line:
digits-plus, a literal dot, whitespace-plus, two stars, the letters-only
verb capture, two stars, whitespace-plus and the target capture to the end
of the line.  Returns the verb and target captures. -/
def matchListItem (line : List Char) : Option (List Char × List Char) :=
  let digits := line.takeWhile Char.isDigit
  let r1 := line.dropWhile Char.isDigit
  if digits.isEmpty then none
  else
    match r1 with
    | '.' :: r2 =>
      let ws1 := r2.takeWhile jsSpace
      let r3 := r2.dropWhile jsSpace
      if ws1.isEmpty then none
      else
        match r3 with
        | '*' :: '*' :: r4 =>
          let verb := r4.takeWhile Char.isAlpha
          let r5 := r4.dropWhile Char.isAlpha
          if verb.isEmpty then none
          else
            match r5 with
            | '*' :: '*' :: r6 => (matchTail r6).map (fun tgt => (verb, tgt))
            | _ => none
        | _ => none
    | _ => none

/-- The closed verb set check of parseImplementationPlan: the lowercased
verb must be one of download, unzip, validate, implement, and is then cast
to the directive kind. -/
def verbToKind (verbLower : String) : Option DirectiveKind :=
  if verbLower == "download" then some DirectiveKind.download
  else if verbLower == "unzip" then some DirectiveKind.unzip
  else if verbLower == "validate" then some DirectiveKind.validate
  else if verbLower == "implement" then some DirectiveKind.implement
  else none

/-- Processing of one plan line inside the loop of
parseImplementationPlan: match the line against the list-item regex, check
the lowercased verb, and build the directive with the trimmed target and
the trimmed line as the raw field. -/
def parseLine (line : String) : Option Directive :=
  match matchListItem line.data with
  | none => none
  | some (verb, target) =>
    match verbToKind (lowerStr (String.mk verb)) with
    | none => none
    | some k =>
      some { type := k, target := jsTrim (String.mk target), raw := jsTrim line }

/-- DocWorkflowManager.parseImplementationPlan applied to the plan text it
read: split on newlines and push a directive for each matching line, in
document order. -/
def parseImplementationPlan (content : String) : List Directive :=
  (content.splitOn "\n").foldl
    (fun acc line =>
      match parseLine line with
      | some d => acc ++ [d]
      | none => acc) []

/-- Fallback directive used only to state the characterization of the
parse as a filter-then-map. -/
def dfltDirective : Directive :=
  { type := DirectiveKind.download, target := "", raw := "" }

/-- A small store of JavaScript arrays, used to express aliasing: each cell
is one array value, and an array reference is the index of its cell. -/
structure Heap where
  cells : List (List DownloadResult)
deriving DecidableEq

/-- Dereference an array reference. -/
def readRef (h : Heap) (r : Nat) : List DownloadResult :=
  h.cells.getD r []

/-- In-place mutation of the array behind a reference (what push or splice
on the array does, up to the resulting contents). -/
def writeRef (h : Heap) (r : Nat) (v : List DownloadResult) : Heap :=
  { cells := h.cells.set r v }

/-- Allocation of a fresh array holding the given records. -/
def allocRef (h : Heap) (v : List DownloadResult) : Heap × Nat :=
  ({ cells := h.cells ++ [v] }, h.cells.length)

/-- The manager state for the aliasing model: the reference held by the
private downloadHistory field. -/
structure ManagerH where
  historyRef : Nat
deriving DecidableEq

/-- DocWorkflowManager.getDownloadHistory in the store model: the source
returns a spread copy of the internal array, that is, a freshly allocated
array holding the same records. -/
def getDownloadHistoryH (h : Heap) (s : ManagerH) : Heap × Nat :=
  allocRef h (readRef h s.historyRef)

/-- How many records one processDownload call appends: one for every 200
response (ordinary or expiry), none for any rejection. -/
theorem processDownload_len (history : List DownloadResult) (url : String) (o : FetchOutcome) :
    ((processDownload history url o).1).length =
      history.length + (match o with | FetchOutcome.success _ _ _ => 1 | _ => 0) := by
  cases o with
  | success ct body view =>
    cases view with
    | parseFail => simp [processDownload]
    | obj m i =>
      cases m with
      | none => simp [processDownload]
      | some msg =>
        by_cases h1 : strContains ct "application/json" = true
        · by_cases h2 : strContains (lowerStr msg) "url expired" = true
          · simp [processDownload, h1, h2]
          · simp [processDownload, h1, h2]
        · simp [processDownload, h1]
  | httpError status => simp [processDownload]
  | noResponse => simp [processDownload]
  | timeout => simp [processDownload]
  | otherFailure => simp [processDownload]

/-- countOk200 distributes over concatenation of attempt sequences. -/
theorem countOk200_append (a b : List (String × FetchOutcome)) :
    countOk200 (a ++ b) = countOk200 a + countOk200 b := by
  induction a with
  | nil => simp [countOk200]
  | cons x rest ih =>
    obtain ⟨u, o⟩ := x
    cases o <;> simp [countOk200, ih] <;> omega

/-- The history length after a sequence of attempts is the starting length
plus the number of 200 responses in the sequence. -/
theorem runDownloads_len (history : List DownloadResult)
    (attempts : List (String × FetchOutcome)) :
    (runDownloads history attempts).length = history.length + countOk200 attempts := by
  induction attempts generalizing history with
  | nil => simp [runDownloads, countOk200]
  | cons a rest ih =>
    obtain ⟨u, o⟩ := a
    rw [runDownloads, ih, processDownload_len]
    cases o <;> simp [countOk200] <;> omega

/-- C1.  The glob matcher does NOT satisfy the correctness table of the
specification: the single-star rows behave as stated, but the code bug in
the substitution chain (the dot and the star inserted for ** are rewritten
by the later replacement passes, as the first conjunct shows on the
produced regex source) makes a pattern beginning with ** require a literal
leading dot, so pattern ** / *.md rejects both file.md and
docs/sub/file.md, which the table - and the repository test suite - expect
it to accept.  The last conjunct exhibits the corrupted semantics: a path
starting with a literal dot is accepted. -/
theorem c1_glob_table :
    globToRegexString "**/*.md" = "\\.[^\\/]*/[^\\/]*\\.md" ∧
    matchesPattern "file.md" "*.md" = true ∧
    matchesPattern "file.txt" "*.md" = false ∧
    matchesPattern "docs/file.md" "docs/*.md" = true ∧
    matchesPattern "other/file.md" "docs/*.md" = false ∧
    matchesPattern "file.md" "**/*.md" = false ∧
    matchesPattern "docs/sub/file.md" "**/*.md" = false ∧
    matchesPattern ".x/file.md" "**/*.md" = true := by
  decide

/-- Modelled from the wording of claim C2: the attempts it calls generic
network/timeout failures, namely a connection-level failure with no
response received, and a timeout.  The claim counts every other attempt -
explicitly including a rejection with a non-200 status - as appending one
ledger record. -/
def specGenericNetFail : FetchOutcome → Bool
  | FetchOutcome.noResponse => true
  | FetchOutcome.timeout => true
  | _ => false

/-- C2 counterexample.  The claim - after any attempt sequence the history
length equals the number of attempts that were not generic network/timeout
failures - is false on the code: a single attempt rejected with HTTP 404
is not a generic network/timeout failure, so the claim predicts one
record, but the catch block of processDownload appends nothing, leaving
the history empty. -/
theorem c2_nonstatus200_attempt_appends_none :
    ¬ ∀ (attempts : List (String × FetchOutcome)),
        (runDownloads [] attempts).length =
          (attempts.filter (fun a => !specGenericNetFail a.2)).length := by
  intro h
  exact absurd (h [("https://example.com/missing.zip", FetchOutcome.httpError 404)]) (by decide)

/-- C2 amended.  The download history length is monotonically
non-decreasing along any attempt sequence, and after the sequence it
equals the count of attempts that received an HTTP 200 response (ordinary
downloads and recognized expiry responses); all rejections - non-200
status, connection failure, timeout, and any other error - append
nothing. -/
theorem c2_ledger_length (history : List DownloadResult)
    (attempts pre post : List (String × FetchOutcome)) :
    (runDownloads history attempts).length = history.length + countOk200 attempts ∧
    (runDownloads history pre).length ≤ (runDownloads history (pre ++ post)).length := by
  refine ⟨runDownloads_len history attempts, ?_⟩
  rw [runDownloads_len, runDownloads_len, countOk200_append]
  omega

/-- C5.  A 200 response with a JSON media type whose body parses to an
object whose message field contains the case-insensitive marker url
expired makes processDownload report failure and append exactly one
record: no payload, isExpired true, and the optional instructions field
captured as expiryInstructions. -/
theorem c5_expiry_record (history : List DownloadResult)
    (url contentType body msg : String) (instructions : Option String)
    (hct : strContains contentType "application/json" = true)
    (hmsg : strContains (lowerStr msg) "url expired" = true) :
    processDownload history url
        (FetchOutcome.success contentType body (JsonView.obj (some msg) instructions)) =
      (history ++ [{ url := url, data := none, contentType := contentType,
                     isExpired := true, expiryInstructions := instructions }], false) := by
  simp [processDownload, hct, hmsg]

/-- C5 witness: the scenario body from the specification, with message URL
expired and instructions contact support, yields the single expiry record
with the captured instructions. -/
theorem c5_expiry_record_witness :
    processDownload [] "https://example.com/doc.zip"
        (FetchOutcome.success "application/json"
          "\x7b\"message\":\"URL expired\",\"instructions\":\"contact support\"\x7d"
          (JsonView.obj (some "URL expired") (some "contact support"))) =
      ([{ url := "https://example.com/doc.zip", data := none,
          contentType := "application/json", isExpired := true,
          expiryInstructions := some "contact support" }], false) :=
  c5_expiry_record [] "https://example.com/doc.zip" "application/json"
    "\x7b\"message\":\"URL expired\",\"instructions\":\"contact support\"\x7d"
    "URL expired" (some "contact support") (by decide) (by decide)

/-- C3 counterexample.  The claim says the fallback is invoked on any read
failure of the plan document, but the catch block of processWorkflow only
runs the fallback when the error message contains ENOENT: a permission
error is a read failure, yet the run reports failure without invoking the
fallback. -/
theorem c3_non_enoent_read_failure_no_fallback :
    (processWorkflow
        (Except.error "EACCES: permission denied, open docs/implementation_plan.md")
        (fun _ => true)).fellBack = false := by
  decide

/-- C3 amended.  The fallback is invoked if and only if the plan read
failed with an error whose message contains ENOENT (the missing-file case)
or the parsed directive sequence is empty; it is never invoked when at
least one directive parses successfully; whenever the fallback is taken
the run succeeds, the fallback itself being a no-op success. -/
theorem c3_fallback_iff (po : Except String (List Directive))
    (handler : Directive → Bool) (d : Directive) (ds : List Directive) :
    ((processWorkflow po handler).fellBack = true ↔
      (∃ msg, po = Except.error msg ∧ strContains msg "ENOENT" = true) ∨
        po = Except.ok []) ∧
    ((processWorkflow po handler).fellBack = false ∨
      (processWorkflow po handler).success = true) ∧
    (processWorkflow (Except.ok (d :: ds)) handler).fellBack = false ∧
    runFallbackFlow = true := by
  refine ⟨?_, ?_, by simp [processWorkflow], rfl⟩
  · cases po with
    | error msg =>
      by_cases h : strContains msg "ENOENT" = true
      · simp [processWorkflow, h]
      · simp [processWorkflow, h]
    | ok dirs =>
      cases dirs with
      | nil => simp [processWorkflow]
      | cons d0 ds0 => simp [processWorkflow]
  · cases po with
    | error msg =>
      by_cases h : strContains msg "ENOENT" = true
      · simp [processWorkflow, h, runFallbackFlow]
      · simp [processWorkflow, h]
    | ok dirs =>
      cases dirs with
      | nil => simp [processWorkflow, runFallbackFlow]
      | cons d0 ds0 => simp [processWorkflow]

/-- C4.  Fail-fast: when every directive before position k succeeds and the
handler of the directive at position k reports failure, the loop of
processWorkflow invokes the handlers of exactly the first k+1 directives
in parsed order (so no handler at positions k+1 and beyond is ever
invoked), the loop result is false, and the whole run reports failure. -/
theorem c4_fail_fast (handler : Directive → Bool) (dirs : List Directive) (k : Nat)
    (hk : k < dirs.length)
    (hfail : handler (dirs.getD k dfltDirective) = false)
    (hprev : ∀ i, i < k → handler (dirs.getD i dfltDirective) = true) :
    (runDirectivesTrace handler dirs).1 = dirs.take (k + 1) ∧
    (runDirectivesTrace handler dirs).2 = false ∧
    (processWorkflow (Except.ok dirs) handler).success = false := by
  have main : ∀ (l : List Directive) (k : Nat), k < l.length →
      handler (l.getD k dfltDirective) = false →
      (∀ i, i < k → handler (l.getD i dfltDirective) = true) →
      (runDirectivesTrace handler l).1 = l.take (k + 1) ∧
      (runDirectivesTrace handler l).2 = false := by
    intro l
    induction l with
    | nil => intro k hk _ _; exact absurd hk (by simp)
    | cons d ds ih =>
      intro k hk hfail hprev
      cases k with
      | zero =>
        have hd : handler d = false := by simpa using hfail
        simp [runDirectivesTrace, hd]
      | succ k0 =>
        have hd : handler d = true := by simpa using hprev 0 (Nat.succ_pos k0)
        have hk0 : k0 < ds.length := by simpa using hk
        have hf0 : handler (ds.getD k0 dfltDirective) = false := by simpa using hfail
        have hp0 : ∀ i, i < k0 → handler (ds.getD i dfltDirective) = true := by
          intro i hi
          simpa using hprev (i + 1) (by omega)
        obtain ⟨h1, h2⟩ := ih k0 hk0 hf0 hp0
        simp [runDirectivesTrace, hd, h1, h2]
  obtain ⟨h1, h2⟩ := main dirs k hk hfail hprev
  refine ⟨h1, h2, ?_⟩
  cases dirs with
  | nil => exact absurd hk (by simp)
  | cons d ds => simpa [processWorkflow] using h2

/-- C4 witness: with three directives whose handler accepts only the
target ok, the second directive fails, so exactly the first two handlers
run, in order, and the run fails. -/
theorem c4_fail_fast_witness :
    (runDirectivesTrace (fun d => d.target == "ok")
        [{ type := DirectiveKind.download, target := "ok", raw := "r1" },
         { type := DirectiveKind.unzip, target := "bad", raw := "r2" },
         { type := DirectiveKind.validate, target := "never", raw := "r3" }]).1 =
      List.take 2
        [{ type := DirectiveKind.download, target := "ok", raw := "r1" },
         { type := DirectiveKind.unzip, target := "bad", raw := "r2" },
         { type := DirectiveKind.validate, target := "never", raw := "r3" }] ∧
    (runDirectivesTrace (fun d => d.target == "ok")
        [{ type := DirectiveKind.download, target := "ok", raw := "r1" },
         { type := DirectiveKind.unzip, target := "bad", raw := "r2" },
         { type := DirectiveKind.validate, target := "never", raw := "r3" }]).2 = false ∧
    (processWorkflow (Except.ok
        [{ type := DirectiveKind.download, target := "ok", raw := "r1" },
         { type := DirectiveKind.unzip, target := "bad", raw := "r2" },
         { type := DirectiveKind.validate, target := "never", raw := "r3" }])
      (fun d => d.target == "ok")).success = false :=
  c4_fail_fast (fun d => d.target == "ok")
    [{ type := DirectiveKind.download, target := "ok", raw := "r1" },
     { type := DirectiveKind.unzip, target := "bad", raw := "r2" },
     { type := DirectiveKind.validate, target := "never", raw := "r3" }]
    1 (by decide) (by decide) (by decide)

/-- First character of the wrong-media-type diagnostic, for any content
type; used to separate it from the other two precondition diagnostics. -/
theorem contentTypeMsg_head (ct : String) :
    ("Content type " ++ ct ++ " is not a zip file").data.head? = some 'C' := by
  have h0 : ("Content type " : String).data = 'C' :: ("ontent type " : String).data := rfl
  rw [String.data_append, String.data_append, h0, List.cons_append, List.cons_append,
    List.head?_cons]

/-- C6.  Each of the three precondition violations of processUnzip - empty
history, payload-absent latest record, non-archive media type - yields its
own distinct diagnostic before the method reaches any filesystem write
(the beginExtraction stage), and the three diagnostics are pairwise
different. -/
theorem c6_unzip_preconditions (history : List DownloadResult)
    (targetPath url contentType payload : String) (expired : Bool) (note : Option String)
    (hct : strContains contentType "zip" = false ∧
           strContains contentType "octet-stream" = false) :
    processUnzipPre [] targetPath = UnzipStep.precondFail "No downloads available to unzip" ∧
    processUnzipPre (history ++ [{ url := url, data := none, contentType := contentType, isExpired := expired, expiryInstructions := note }]) targetPath
      = UnzipStep.precondFail "No data available in latest download" ∧
    processUnzipPre (history ++ [{ url := url, data := some payload, contentType := contentType, isExpired := expired, expiryInstructions := note }]) targetPath
      = UnzipStep.precondFail ("Content type " ++ contentType ++ " is not a zip file") ∧
    ("No downloads available to unzip" : String) ≠ "No data available in latest download" ∧
    ("Content type " ++ contentType ++ " is not a zip file") ≠ "No downloads available to unzip" ∧
    ("Content type " ++ contentType ++ " is not a zip file") ≠ "No data available in latest download" := by
  obtain ⟨hz, ho⟩ := hct
  refine ⟨by simp [processUnzipPre], ?_, ?_, by decide, ?_, ?_⟩
  · simp [processUnzipPre, List.getLast?_concat]
  · simp [processUnzipPre, List.getLast?_concat, hz, ho]
  · intro h
    have h2 : ("Content type " ++ contentType ++ " is not a zip file").data.head? =
        ("No downloads available to unzip" : String).data.head? := by rw [h]
    rw [contentTypeMsg_head contentType] at h2
    exact absurd h2 (by decide)
  · intro h
    have h2 : ("Content type " ++ contentType ++ " is not a zip file").data.head? =
        ("No data available in latest download" : String).data.head? := by rw [h]
    rw [contentTypeMsg_head contentType] at h2
    exact absurd h2 (by decide)

/-- C6 witness: a text/plain latest record with payload triggers the
media-type diagnostic; the other two violations and the distinctness
conjuncts are instantiated alongside. -/
theorem c6_unzip_preconditions_witness :
    processUnzipPre [] "out" = UnzipStep.precondFail "No downloads available to unzip" ∧
    processUnzipPre ([] ++ [{ url := "https://example.com/f.txt", data := none, contentType := "text/plain", isExpired := false, expiryInstructions := none }]) "out"
      = UnzipStep.precondFail "No data available in latest download" ∧
    processUnzipPre ([] ++ [{ url := "https://example.com/f.txt", data := some "text content", contentType := "text/plain", isExpired := false, expiryInstructions := none }]) "out"
      = UnzipStep.precondFail ("Content type " ++ "text/plain" ++ " is not a zip file") ∧
    ("No downloads available to unzip" : String) ≠ "No data available in latest download" ∧
    ("Content type " ++ "text/plain" ++ " is not a zip file") ≠ "No downloads available to unzip" ∧
    ("Content type " ++ "text/plain" ++ " is not a zip file") ≠ "No data available in latest download" :=
  c6_unzip_preconditions [] "out" "https://example.com/f.txt" "text/plain" "text content"
    false none (by decide)

/-- C7.  Pattern validation always searches the fixed root directory named
documentation: the basePath argument accepted by the validate_patterns
tool schema has no effect on the outcome (the handler never forwards it),
and in particular a call supplying basePath custom still probes the
documentation root. -/
theorem c7_basepath_ignored (pattern : String) (bp1 bp2 : Option String)
    (rootExists : Bool) (fileTree : List String) :
    validatePatternsTool pattern bp1 rootExists fileTree =
      validatePatternsTool pattern bp2 rootExists fileTree ∧
    stepRoot (validatePatternsTool pattern bp1 rootExists fileTree) = "documentation" ∧
    validatePatternsTool "*.md" (some "custom") false [] =
      ValidateStep.rootMissing "documentation" := by
  refine ⟨rfl, ?_, by decide⟩
  simp only [validatePatternsTool, processValidate]
  split
  · rfl
  · split
    · rfl
    · rfl

/-- The push loop of parseImplementationPlan, started from any accumulator,
appends exactly the directives of the matching lines in order. -/
theorem parse_foldl_eq (ls : List String) (acc : List Directive) :
    ls.foldl
      (fun acc line =>
        match parseLine line with
        | some d => acc ++ [d]
        | none => acc) acc = acc ++ ls.filterMap parseLine := by
  induction ls generalizing acc with
  | nil => simp
  | cons l ls ih =>
    simp only [List.foldl_cons, List.filterMap_cons]
    cases h : parseLine l with
    | none => simp [h, ih]
    | some d => simp [h, ih]

/-- The per-line filterMap is the same as keeping the matching lines and
mapping each to its directive. -/
theorem filterMap_parseLine_eq (ls : List String) :
    ls.filterMap parseLine =
      (ls.filter (fun l => (parseLine l).isSome)).map
        (fun l => (parseLine l).getD dfltDirective) := by
  induction ls with
  | nil => simp
  | cons l ls ih =>
    cases h : parseLine l with
    | none => simp [List.filterMap_cons, List.filter_cons, h, ih]
    | some d => simp [List.filterMap_cons, List.filter_cons, h, ih]

/-- C8.  Parsing is order-preserving: the parsed sequence is exactly the
per-line parse of the newline-split plan text, that is, the directives of
the matching lines in their textual order, with non-matching lines
(unrecognized verbs or lines outside the list-item grammar) excluded and
nothing reordered or deduplicated. -/
theorem c8_parse_order_preserving (content : String) :
    parseImplementationPlan content = (content.splitOn "\n").filterMap parseLine ∧
    parseImplementationPlan content =
      ((content.splitOn "\n").filter (fun l => (parseLine l).isSome)).map
        (fun l => (parseLine l).getD dfltDirective) := by
  have h := parse_foldl_eq (content.splitOn "\n") []
  constructor
  · simpa [parseImplementationPlan] using h
  · rw [filterMap_parseLine_eq] at h
    simpa [parseImplementationPlan] using h

/-- C9 counterexample.  The raw field is NOT the matched line verbatim: the
source stores line.trim(), so for a matching line with trailing
whitespace the stored raw differs from the line as it appears in the plan
text. -/
theorem c9_raw_not_verbatim :
    parseLine "1. **download** x " =
      some { type := DirectiveKind.download, target := "x", raw := "1. **download** x" } ∧
    ("1. **download** x" : String) ≠ "1. **download** x " := by
  decide

/-- C9 amended.  For every line recognized as a directive, the target is
the captured target with surrounding whitespace trimmed, and the raw field
is the matched line with surrounding whitespace trimmed (the source
applies trim to the line, so raw is verbatim only when the line carries no
trailing whitespace; a matching line never has leading whitespace). -/
theorem c9_target_raw_trimmed (line : String) (d : Directive)
    (h : parseLine line = some d) :
    (∃ verb target, matchListItem line.data = some (verb, target) ∧
        d.target = jsTrim (String.mk target)) ∧
    d.raw = jsTrim line := by
  unfold parseLine at h
  split at h
  · exact absurd h (by simp)
  · next verb target heq =>
    split at h
    · exact absurd h (by simp)
    · next k hk =>
      simp only [Option.some.injEq] at h
      subst h
      exact ⟨⟨verb, target, heq, rfl⟩, rfl⟩

/-- C9 witness: a clean directive line, where the trimmed target and the
trimmed raw line are exhibited through the amended theorem. -/
theorem c9_target_raw_trimmed_witness :
    (∃ verb target, matchListItem "1. **download** https://x/d.zip".data = some (verb, target) ∧
        ({ type := DirectiveKind.download, target := "https://x/d.zip", raw := "1. **download** https://x/d.zip" } : Directive).target = jsTrim (String.mk target)) ∧
    ({ type := DirectiveKind.download, target := "https://x/d.zip", raw := "1. **download** https://x/d.zip" } : Directive).raw = jsTrim "1. **download** https://x/d.zip" :=
  c9_target_raw_trimmed "1. **download** https://x/d.zip"
    { type := DirectiveKind.download, target := "https://x/d.zip", raw := "1. **download** https://x/d.zip" }
    (by decide)

/-- C10.  getDownloadHistory returns a fresh array: the reference it
returns is distinct from the internal downloadHistory reference, the fresh
array holds exactly the internal records, and overwriting the returned
array (any mutation of its contents) leaves the internal history
unchanged, so a later read of the internal reference - which is what a
subsequent getDownloadHistory call copies - still yields the records from
before the mutation.  The last conjunct records that processDownload only
ever appends to the history it is given. -/
theorem c10_history_copy (heap : Heap) (s : ManagerH) (v2 : List DownloadResult)
    (u : String) (o : FetchOutcome) (hist : List DownloadResult)
    (hv : s.historyRef < heap.cells.length) :
    (getDownloadHistoryH heap s).2 ≠ s.historyRef ∧
    readRef (getDownloadHistoryH heap s).1 (getDownloadHistoryH heap s).2 =
      readRef heap s.historyRef ∧
    readRef (writeRef (getDownloadHistoryH heap s).1 (getDownloadHistoryH heap s).2 v2)
        s.historyRef = readRef heap s.historyRef ∧
    (∃ t, (processDownload hist u o).1 = hist ++ t) := by
  refine ⟨by simp [getDownloadHistoryH, allocRef]; omega, ?_, ?_, ?_⟩
  · simp only [getDownloadHistoryH, allocRef, readRef, List.getD]
    rw [List.get?_concat_length]
    rfl
  · simp only [getDownloadHistoryH, allocRef, readRef, writeRef, List.getD]
    rw [List.get?_set_ne v2 _ (Nat.ne_of_gt hv), List.get?_append hv]
  · cases o with
    | success ct body view =>
      cases view with
      | parseFail =>
        exact ⟨[{ url := u, data := some body, contentType := ct, isExpired := false, expiryInstructions := none }], by simp [processDownload]⟩
      | obj m i =>
        cases m with
        | none =>
          exact ⟨[{ url := u, data := some body, contentType := ct, isExpired := false, expiryInstructions := none }], by simp [processDownload]⟩
        | some msg =>
          by_cases h1 : strContains ct "application/json" = true
          · by_cases h2 : strContains (lowerStr msg) "url expired" = true
            · exact ⟨[{ url := u, data := none, contentType := ct, isExpired := true, expiryInstructions := i }], by simp [processDownload, h1, h2]⟩
            · exact ⟨[{ url := u, data := some body, contentType := ct, isExpired := false, expiryInstructions := none }], by simp [processDownload, h1, h2]⟩
          · exact ⟨[{ url := u, data := some body, contentType := ct, isExpired := false, expiryInstructions := none }], by simp [processDownload, h1]⟩
    | httpError status => exact ⟨[], by simp [processDownload]⟩
    | noResponse => exact ⟨[], by simp [processDownload]⟩
    | timeout => exact ⟨[], by simp [processDownload]⟩
    | otherFailure => exact ⟨[], by simp [processDownload]⟩

/-- Sample record used by the C10 witness. -/
def sampleRec : DownloadResult :=
  { url := "https://example.com/doc.zip", data := some "PK", contentType := "application/zip", isExpired := false, expiryInstructions := none }

/-- C10 witness: a store with one internal history cell holding one record;
emptying the array returned by getDownloadHistory leaves the internal
record in place. -/
theorem c10_history_copy_witness :
    (getDownloadHistoryH { cells := [[sampleRec]] } { historyRef := 0 }).2 ≠ 0 ∧
    readRef (getDownloadHistoryH { cells := [[sampleRec]] } { historyRef := 0 }).1
        (getDownloadHistoryH { cells := [[sampleRec]] } { historyRef := 0 }).2 =
      readRef { cells := [[sampleRec]] } 0 ∧
    readRef (writeRef (getDownloadHistoryH { cells := [[sampleRec]] } { historyRef := 0 }).1
        (getDownloadHistoryH { cells := [[sampleRec]] } { historyRef := 0 }).2 []) 0 =
      readRef { cells := [[sampleRec]] } 0 ∧
    (∃ t, (processDownload [] "https://example.com/a.zip" FetchOutcome.noResponse).1 = [] ++ t) :=
  c10_history_copy { cells := [[sampleRec]] } { historyRef := 0 } []
    "https://example.com/a.zip" FetchOutcome.noResponse [] (by decide)

end DocWorkflow
